import Mathlib

/-!
Verification of the ai-agent-killswitch containment core against its
natural-language specification.

The Python sources are shallowly embedded: every class becomes a structure,
every method a pure function that threads the object state explicitly, and
wall-clock reads (time.time()) become an explicit rational argument. Python
floats are modelled as exact rationals, which is faithful for all the
integer-valued quantities the specification discusses.

Modules embedded here:
  - src/python/fail_mode.py            (FailMode, CachedPolicy, PolicyCache,
                                        FailModeHandler)
  - src/python/behavioral_thresholds.py (ThresholdConfig, ThresholdBreach,
                                        BehavioralThresholds, ExfiltrationDetector)
  - src/python/sliding_window.py       (SlidingWindow, MetricTracker,
                                        SlidingWindowDetector)
  - src/python/hard_kill.py            (HardKill.kill, AgentTerminator)
  - src/python/network_kill.py         (LinuxFirewall, MacOSFirewall)
-/

namespace KillSwitch

/-! ### fail_mode.py: data model -/

/-- Fail mode selector (fail_mode.py, class FailMode). The OPEN member is
named openAll here because open is a Lean keyword. -/
inductive FailMode where
  | closed
  | cached
  | openAll
deriving DecidableEq, Repr

/-- Configuration dataclass FailModeConfig (fail_mode.py lines 53-73), with
the documented defaults. -/
structure FailModeConfig where
  mode : FailMode := FailMode.closed
  api_timeout_ms : ℕ := 100
  cache_ttl_seconds : ℚ := 60
  cache_file_path : String := ".fence_policy_cache.json"
  max_cache_entries : ℕ := 10000
  alert_on_fail : Bool := true
  log_level : String := "WARNING"
deriving Repr

/-- The value produced by the zero-argument constructor FailModeConfig(). -/
def FailModeConfig.default : FailModeConfig := {}

/-- Cached policy dataclass CachedPolicy (fail_mode.py lines 76-111).
Metadata dictionaries are modelled as association lists of strings. -/
structure CachedPolicy where
  action : String
  target : String
  allowed : Bool
  risk_score : ℚ
  cached_at : ℚ
  expires_at : ℚ
  policy_hash : String
  metadata : List (String × String) := []
deriving DecidableEq, Repr

/-- The SHA-256 digest used by CachedPolicy._compute_hash is modelled as an
abstract function of exactly the data that is interpolated into the hashed
string, namely action, target, allowed, risk_score and cached_at
(fail_mode.py line 110). All theorems are quantified over this function. -/
def HashFn : Type := String → String → Bool → ℚ → ℚ → String

/-- CachedPolicy._compute_hash: the digest of
f"{action}:{target}:{allowed}:{risk_score}:{cached_at}". -/
def CachedPolicy.computeHash (hf : HashFn) (p : CachedPolicy) : String :=
  hf p.action p.target p.allowed p.risk_score p.cached_at

/-- CachedPolicy.verify_integrity (fail_mode.py lines 103-106). -/
def CachedPolicy.verifyIntegrity (hf : HashFn) (p : CachedPolicy) : Bool :=
  p.policy_hash == p.computeHash hf

/-- CachedPolicy.is_expired (fail_mode.py lines 99-101): true when the
current time is strictly past expires_at. -/
def CachedPolicy.isExpired (p : CachedPolicy) (now : ℚ) : Bool :=
  p.expires_at < now

/-! ### fail_mode.py: PolicyCache

The Python dict backing the cache is modelled as an association list whose
keys are unique (a Python dict cannot hold a key twice), and keyed deletion
is modelled by filtering the key out. -/

/-- The in-memory store of PolicyCache, keyed as in _make_key. -/
abbrev PCache : Type := List (String × CachedPolicy)

/-- PolicyCache._make_key (fail_mode.py lines 259-261). -/
def makeKey (action target : String) : String :=
  action ++ "::" ++ target

/-- Dict lookup self._cache.get-style access: first binding for the key. -/
def PCache.lookupKey (c : PCache) (key : String) : Option CachedPolicy :=
  (c.find? (fun e => e.1 == key)).map (·.2)

/-- Keyed deletion, del self._cache[key]. -/
def PCache.deleteKey (c : PCache) (key : String) : PCache :=
  c.filter (fun e => ¬ e.1 = key)

/-- PolicyCache.get (fail_mode.py lines 137-171): a missing entry is a miss;
an expired entry is deleted and is a miss; an entry failing integrity
verification is deleted and is a miss; otherwise the entry is returned.
Returns the result together with the mutated store. -/
def PCache.get (hf : HashFn) (c : PCache) (action target : String) (now : ℚ) :
    Option CachedPolicy × PCache :=
  let key := makeKey action target
  match c.lookupKey key with
  | none => (none, c)
  | some policy =>
    if policy.isExpired now then
      (none, c.deleteKey key)
    else if ¬ policy.verifyIntegrity hf then
      (none, c.deleteKey key)
    else
      (some policy, c)

/-- PolicyCache._cleanup_oldest (fail_mode.py lines 263-274): drop the oldest
tenth of the entries by cached_at. Python sorted() is a stable sort, modelled
by insertion sort. -/
def PCache.cleanupOldest (c : PCache) : PCache :=
  let sorted := c.insertionSort (fun x y => x.2.cached_at ≤ y.2.cached_at)
  let victims := (sorted.take (sorted.length / 10)).map (·.1)
  c.filter (fun e => ¬ victims.contains e.1)

/-- PolicyCache.set (fail_mode.py lines 173-209): store a decision stamped
with expires_at = now + ttl and the digest of its own fields, then enforce
the capacity bound. Disk persistence is an external effect and is not
modelled. -/
def PCache.set (hf : HashFn) (cfg : FailModeConfig) (c : PCache)
    (action target : String) (allowed : Bool) (risk_score : ℚ)
    (metadata : List (String × String)) (now : ℚ) : PCache :=
  let key := makeKey action target
  let policy : CachedPolicy :=
    { action := action
      target := target
      allowed := allowed
      risk_score := risk_score
      cached_at := now
      expires_at := now + cfg.cache_ttl_seconds
      policy_hash := ""
      metadata := metadata }
  let policy := { policy with policy_hash := policy.computeHash hf }
  let c :=
    if c.lookupKey key matches some _ then
      c.map (fun e => if e.1 = key then (key, policy) else e)
    else
      c ++ [(key, policy)]
  if decide (cfg.max_cache_entries < c.length) then PCache.cleanupOldest c else c

/-! ### fail_mode.py: FailModeHandler -/

/-- The decision triple returned by FailModeHandler.on_validation_failure. -/
structure FailDecision where
  allowed : Bool
  reason : String
  risk_score : ℚ
deriving DecidableEq, Repr

/-- Mutable state of a FailModeHandler (configuration and policy cache; the
hit and failure counters are bookkeeping the claims do not touch). -/
structure FailModeHandler where
  config : FailModeConfig
  cache : PCache
deriving Repr

/-- FailModeHandler.__init__ (fail_mode.py lines 346-356): config or
FailModeConfig(), starting from the given cache contents (the disk load). -/
def FailModeHandler.init (config : Option FailModeConfig) (cache : PCache) :
    FailModeHandler :=
  { config := config.getD FailModeConfig.default, cache := cache }

/-- FailModeHandler._handle_fail_closed (fail_mode.py lines 410-431). -/
def FailModeHandler.handleFailClosed (h : FailModeHandler)
    (action _target errorMsg : String) : FailDecision × FailModeHandler :=
  ({ allowed := false
     reason := "FAIL-CLOSED: " ++ action ++
       " blocked due to validation failure (" ++ errorMsg ++ ")"
     risk_score := 100 }, h)

/-- FailModeHandler._handle_fail_cached (fail_mode.py lines 433-471): replay
the cached decision when the cache yields one, else fall back to the
fail-closed outcome. -/
def FailModeHandler.handleFailCached (hf : HashFn) (h : FailModeHandler)
    (action target : String) (now : ℚ) : FailDecision × FailModeHandler :=
  match PCache.get hf h.cache action target now with
  | (some cached, c) =>
    ({ allowed := cached.allowed
       reason := "FAIL-CACHED: Using cached policy"
       risk_score := cached.risk_score }, { h with cache := c })
  | (none, c) =>
    ({ allowed := false
       reason := "FAIL-CACHED: No cached policy found for " ++ action ++ ":"
         ++ target ++ " Falling back to FAIL-CLOSED behavior"
       risk_score := 100 }, { h with cache := c })

/-- FailModeHandler._handle_fail_open (fail_mode.py lines 473-499). -/
def FailModeHandler.handleFailOpen (h : FailModeHandler)
    (action _target errorMsg : String) : FailDecision × FailModeHandler :=
  ({ allowed := true
     reason := "FAIL-OPEN: " ++ action ++
       " ALLOWED despite validation failure! Error: " ++ errorMsg
     risk_score := 0 }, h)

/-- FailModeHandler.on_validation_failure (fail_mode.py lines 366-408):
dispatch on the configured mode. -/
def FailModeHandler.onValidationFailure (hf : HashFn) (h : FailModeHandler)
    (action target errorMsg : String) (now : ℚ) :
    FailDecision × FailModeHandler :=
  match h.config.mode with
  | FailMode.closed => h.handleFailClosed action target errorMsg
  | FailMode.cached => h.handleFailCached hf action target now
  | FailMode.openAll => h.handleFailOpen action target errorMsg

/-! ### behavioral_thresholds.py: data model -/

/-- Breach reaction enum ThresholdAction (behavioral_thresholds.py 31-36). -/
inductive ThresholdAction where
  | warn
  | block
  | throttle
  | kill
deriving DecidableEq, Repr

/-- Threshold configuration dataclass ThresholdConfig
(behavioral_thresholds.py 39-59), with the documented defaults. -/
structure ThresholdConfig where
  name : String
  action_type : String
  max_count : ℕ
  window_seconds : ℚ
  action_on_breach : ThresholdAction := ThresholdAction.block
  cooldown_seconds : ℚ := 60
  multiplier_for_kill : ℚ := 2
deriving DecidableEq, Repr

/-- Breach record dataclass ThresholdBreach (behavioral_thresholds.py
185-209). The wall-clock creation timestamp is bookkeeping and is omitted. -/
structure ThresholdBreach where
  agent_id : String
  threshold_name : String
  action_type : String
  count : ℕ
  limit : ℕ
  window_seconds : ℚ
  breach_action : ThresholdAction
  should_kill : Bool
deriving DecidableEq, Repr

/-- Mutable state of a BehavioralThresholds engine (behavioral_thresholds.py
245-286). The defaultdict maps become total functions with the defaultdict
default: an absent history is the empty list and an absent cooldown entry is
0 (matching self._cooldowns[agent_id].get(action_type, 0)). The statistics
counters are bookkeeping the claims do not touch. -/
structure BTState where
  thresholds : String → Option ThresholdConfig
  history : String → String → List ℚ
  cooldowns : String → String → ℚ
  breach_history : List ThresholdBreach

/-- Pointwise update of a two-level defaultdict entry. -/
def update2 (f : String → String → α) (a b : String) (v : α) :
    String → String → α :=
  fun x y => if x = a ∧ y = b then v else f x y

/-- BehavioralThresholds._is_in_cooldown (behavioral_thresholds.py 386-397):
now strictly before the recorded cooldown end (0 when absent). -/
def BTState.isInCooldown (s : BTState) (agent action_type : String)
    (now : ℚ) : Bool :=
  now < s.cooldowns agent action_type

/-- BehavioralThresholds._count_recent_actions (behavioral_thresholds.py
356-373): prune the history to timestamps strictly after now - window and
return its length, together with the pruned state. -/
def BTState.countRecentActions (s : BTState) (agent action_type : String)
    (now window_seconds : ℚ) : ℕ × BTState :=
  let cutoff := now - window_seconds
  let pruned := (s.history agent action_type).filter (fun ts => cutoff < ts)
  (pruned.length, { s with history := update2 s.history agent action_type pruned })

/-- BehavioralThresholds._record_action (behavioral_thresholds.py 375-384). -/
def BTState.recordAction (s : BTState) (agent action_type : String)
    (timestamp : ℚ) : BTState :=
  { s with
    history := update2 s.history agent action_type
      (s.history agent action_type ++ [timestamp]) }

/-- BehavioralThresholds._handle_breach (behavioral_thresholds.py 399-456):
build the breach with should_kill = (count at or past max_count times the
kill multiplier, or a kill breach action), append it to the audit log and
start the cooldown. The logging and callbacks are external effects. -/
def BTState.handleBreach (s : BTState) (agent : String)
    (threshold : ThresholdConfig) (count : ℕ) (now : ℚ) :
    ThresholdBreach × BTState :=
  let kill_threshold : ℚ := threshold.max_count * threshold.multiplier_for_kill
  let should_kill : Bool :=
    decide (kill_threshold ≤ (count : ℚ)) ||
      threshold.action_on_breach == ThresholdAction.kill
  let breach : ThresholdBreach :=
    { agent_id := agent
      threshold_name := threshold.name
      action_type := threshold.action_type
      count := count
      limit := threshold.max_count
      window_seconds := threshold.window_seconds
      breach_action := threshold.action_on_breach
      should_kill := should_kill }
  (breach,
    { s with
      breach_history := s.breach_history ++ [breach]
      cooldowns := update2 s.cooldowns agent threshold.action_type
        (now + threshold.cooldown_seconds) })

/-- BehavioralThresholds.check_action (behavioral_thresholds.py 288-354):
cooldown check first (returning the synthetic cooldown breach), then the
unconfigured-type record-and-allow path, then count recent actions and
either raise a breach (count at or past max_count) or record and allow. -/
def BTState.checkAction (s : BTState) (agent action_type : String)
    (now : ℚ) : (Bool × Option ThresholdBreach) × BTState :=
  if s.isInCooldown agent action_type now then
    let breach : ThresholdBreach :=
      { agent_id := agent
        threshold_name := "Cooldown Active"
        action_type := action_type
        count := 0
        limit := 0
        window_seconds := 0
        breach_action := ThresholdAction.block
        should_kill := false }
    ((false, some breach), s)
  else
    match s.thresholds action_type with
    | none => ((true, none), s.recordAction agent action_type now)
    | some threshold =>
      let (count, s) :=
        s.countRecentActions agent action_type now threshold.window_seconds
      if threshold.max_count ≤ count then
        let (breach, s) := s.handleBreach agent threshold count now
        ((false, some breach), s)
      else
        ((true, none), s.recordAction agent action_type now)

/-- Fold of check_action over a list of call timestamps for one agent and
action type, collecting every call result. -/
def BTState.runCalls (s : BTState) (agent action_type : String) :
    List ℚ → List (Bool × Option ThresholdBreach) × BTState
  | [] => ([], s)
  | t :: ts =>
    let (r, s1) := s.checkAction agent action_type t
    let (rs, s2) := s1.runCalls agent action_type ts
    (r :: rs, s2)

/-! ### behavioral_thresholds.py: ExfiltrationDetector -/

/-- Mutable state of an ExfiltrationDetector (behavioral_thresholds.py
576-584): per-agent access log of (timestamp, bytes) pairs, per-agent set of
targets ever seen, and the cap attributes with their initializer values. -/
structure ExfilState where
  data_volumes : String → List (ℚ × ℚ)
  unique_targets : String → Finset String
  max_data_volume_mb : ℚ := 100
  max_unique_files : ℕ := 1000
  max_unique_ips : ℕ := 20
  window_seconds : ℚ := 300

/-- A fresh ExfiltrationDetector(). -/
def ExfilState.init : ExfilState :=
  { data_volumes := fun _ => [], unique_targets := fun _ => ∅ }

/-- ExfiltrationDetector.record_data_access (behavioral_thresholds.py
586-622): append the access, add the target to the per-agent set, prune the
volume log to the window, then flag exfiltration when the in-window megabyte
volume exceeds the cap or the (never pruned) target set exceeds its cap. -/
def ExfilState.recordDataAccess (s : ExfilState)
    (agent target : String) (bytes_accessed : ℚ) (now : ℚ) :
    (Bool × String) × ExfilState :=
  let cutoff := now - s.window_seconds
  let volumes :=
    ((s.data_volumes agent) ++ [(now, bytes_accessed)]).filter
      (fun e => cutoff < e.1)
  let targets := insert target (s.unique_targets agent)
  let s :=
    { s with
      data_volumes := fun a => if a = agent then volumes else s.data_volumes a
      unique_targets := fun a => if a = agent then targets else s.unique_targets a }
  let total_bytes := (volumes.map (·.2)).sum
  let total_mb := total_bytes / (1024 * 1024)
  if s.max_data_volume_mb < total_mb then
    ((true, "Data volume exceeded"), s)
  else if s.max_unique_files < targets.card then
    ((true, "Unique file access exceeded"), s)
  else
    ((false, ""), s)

/-! ### sliding_window.py: multi-window detector -/

/-- Window size enum WindowSize (sliding_window.py 25-28); the value is the
window length in seconds. -/
inductive WindowSize where
  | hour1
  | hour6
  | hour24
deriving DecidableEq, Repr

/-- WindowSize member values. -/
def WindowSize.seconds : WindowSize → ℚ
  | .hour1 => 3600
  | .hour6 => 21600
  | .hour24 => 86400

/-- Metric enum MetricType (sliding_window.py 31-37). -/
inductive MetricType where
  | bytes_out
  | bytes_in
  | records_accessed
  | api_calls
  | files_read
  | connections
deriving DecidableEq, Repr

/-- Per-window threshold dataclass WindowThreshold (sliding_window.py
40-48). -/
structure WindowThreshold where
  metric : MetricType
  window : WindowSize
  limit : ℚ
  action : String := "alert"
deriving DecidableEq, Repr

/-- Event dataclass WindowEvent (sliding_window.py 62-65). -/
structure WindowEvent where
  timestamp : ℚ
  value : ℚ
deriving DecidableEq, Repr

/-- Breach dataclass ThresholdBreach of sliding_window.py (62-87); named
apart from the behavioral_thresholds breach as in the separate modules. The
wall-clock creation timestamp is omitted. -/
structure WindowBreach where
  metric : MetricType
  window : WindowSize
  current_value : ℚ
  limit : ℚ
  action : String
  agent_id : String
deriving DecidableEq, Repr

/-- State of one SlidingWindow (sliding_window.py 90-117): the event deque
and the incrementally maintained running total. -/
structure SlidingWindow where
  window_size : WindowSize
  events : List WindowEvent
  total : ℚ

/-- SlidingWindow._prune (sliding_window.py 104-108): pop events from the
left while the head is strictly older than the cutoff, subtracting each
popped value from the running total. -/
def swPrune : List WindowEvent → ℚ → ℚ → List WindowEvent × ℚ
  | [], _, total => ([], total)
  | e :: rest, cutoff, total =>
    if e.timestamp < cutoff then swPrune rest cutoff (total - e.value)
    else (e :: rest, total)

/-- SlidingWindow.add (sliding_window.py 98-102): append the event, add its
value to the total, then prune at the event timestamp. The timestamp is the
explicit clock argument. -/
def SlidingWindow.add (w : SlidingWindow) (value ts : ℚ) : SlidingWindow :=
  let events := w.events ++ [⟨ts, value⟩]
  let total := w.total + value
  let (events, total) := swPrune events (ts - w.window_size.seconds) total
  { w with events := events, total := total }

/-- SlidingWindow.get_total (sliding_window.py 110-113): prune at the given
time and return the running total together with the pruned window. -/
def SlidingWindow.getTotal (w : SlidingWindow) (ts : ℚ) : ℚ × SlidingWindow :=
  let (events, total) := swPrune w.events (ts - w.window_size.seconds) w.total
  (total, { w with events := events, total := total })

/-- State of a MetricTracker (sliding_window.py 120-129): one sliding window
per window size. -/
structure MetricTracker where
  windows : WindowSize → SlidingWindow

/-- MetricTracker for a fresh metric: three empty windows. -/
def MetricTracker.init : MetricTracker :=
  ⟨fun ws => ⟨ws, [], 0⟩⟩

/-- MetricTracker.record (sliding_window.py 131-134): add the value to every
window simultaneously. -/
def MetricTracker.record (t : MetricTracker) (value ts : ℚ) : MetricTracker :=
  ⟨fun ws => (t.windows ws).add value ts⟩

/-- MetricTracker.get_total (sliding_window.py 136-137). -/
def MetricTracker.getTotal (t : MetricTracker) (ws : WindowSize) (ts : ℚ) :
    ℚ × MetricTracker :=
  let (total, w) := (t.windows ws).getTotal ts
  (total, ⟨fun x => if x = ws then w else t.windows x⟩)

/-- State of a SlidingWindowDetector (sliding_window.py 146-184): one
tracker per metric plus the threshold table and breach log. -/
structure SWDetector where
  agent_id : String
  thresholds : List WindowThreshold
  trackers : MetricType → MetricTracker
  breaches : List WindowBreach

/-- SlidingWindowDetector.record (sliding_window.py 186-187). -/
def SWDetector.record (d : SWDetector) (metric : MetricType) (value ts : ℚ) :
    SWDetector :=
  { d with
    trackers := fun m =>
      if m = metric then (d.trackers m).record value ts else d.trackers m }

/-- One step of the check_thresholds loop body (sliding_window.py 211-236):
read the (pruning) total for the threshold pair and emit a breach when it
strictly exceeds the limit. -/
def SWDetector.checkOne (d : SWDetector) (th : WindowThreshold) (now : ℚ) :
    Option WindowBreach × SWDetector :=
  let (current, tracker) := (d.trackers th.metric).getTotal th.window now
  let d :=
    { d with
      trackers := fun m => if m = th.metric then tracker else d.trackers m }
  if th.limit < current then
    let breach : WindowBreach :=
      { metric := th.metric
        window := th.window
        current_value := current
        limit := th.limit
        action := th.action
        agent_id := d.agent_id }
    (some breach, { d with breaches := d.breaches ++ [breach] })
  else
    (none, d)

/-- SlidingWindowDetector.check_thresholds (sliding_window.py 207-237):
fold the loop body over the threshold table at one probe time, collecting
the emitted breaches in order. -/
def SWDetector.checkThresholds (d : SWDetector) :
    List WindowThreshold → ℚ → List WindowBreach × SWDetector
  | [], _ => ([], d)
  | th :: rest, now =>
    let (b, d1) := d.checkOne th now
    let (bs, d2) := d1.checkThresholds rest now
    (b.elim bs (· :: bs), d2)

/-- Entry point matching check_thresholds on the detector state. -/
def SWDetector.check (d : SWDetector) (now : ℚ) :
    List WindowBreach × SWDetector :=
  d.checkThresholds d.thresholds now

/-! ### hard_kill.py: escalating kill

The OS process is the environment of HardKill.kill. Its observable behavior
is abstracted as: whether it is alive at the initial check, whether each
signal send succeeds (os.kill raising PermissionError models a failed
send), and its liveness at each is_process_alive poll. The poll loops of
_wait_for_death and _verify_death are discretized by poll index: with soft
timeout T and poll interval d, _wait_for_death performs ceil(T/d) liveness
checks before the timeout elapses, which is the numSoftPolls parameter
below; _verify_death performs max_verify_attempts in-loop checks plus the
final check after the loop. Wall-clock durations (time_to_death_ms) are
real-time bookkeeping and are omitted from the report. -/

/-- Kill outcome enum KillResult (hard_kill.py 38-46). -/
inductive KillResult where
  | success
  | already_dead
  | soft
  | hard
  | failed
  | permission_denied
  | zombie
deriving DecidableEq, Repr

/-- Kill report dataclass KillReport (hard_kill.py 49-84), without the
real-time fields. -/
structure KillReport where
  pid : ℤ
  result : KillResult
  soft_signal_sent : Bool := false
  hard_signal_sent : Bool := false
  error : Option String := none
deriving DecidableEq, Repr

/-- The signals HardKill can emit, in emission order. -/
inductive Sig where
  | sigterm
  | sigkill
deriving DecidableEq, Repr

/-- Observable behavior of the target process and operating system during
one HardKill.kill call. aliveSoft k is the is_process_alive result at the
k-th poll of _wait_for_death; aliveHard k likewise for _verify_death. -/
structure KillEnv where
  alive0 : Bool
  softSendOk : Bool
  aliveSoft : ℕ → Bool
  hardSendOk : Bool
  aliveHard : ℕ → Bool

/-- HardKill._wait_for_death (hard_kill.py 390-397): true as soon as one of
the polls inside the timeout observes the process dead. -/
def waitForDeath (alive : ℕ → Bool) (numpolls : ℕ) : Bool :=
  (List.range numpolls).any (fun k => ! alive k)

/-- HardKill._verify_death (hard_kill.py 399-405): up to max_verify_attempts
in-loop checks, then one final check after the loop. -/
def verifyDeath (alive : ℕ → Bool) (maxAttempts : ℕ) : Bool :=
  (List.range maxAttempts).any (fun k => ! alive k) || ! alive maxAttempts

/-- HardKill.kill (hard_kill.py 245-338), returning the report together with
the trace of signals actually delivered. A send that raises is not
delivered; a send to an already-exited process is treated as delivered
(hard_kill.py 355-357 returns True on ProcessLookupError, and the env then
reports the process dead at every subsequent poll). -/
def HardKill.kill (numSoftPolls maxVerifyAttempts : ℕ) (env : KillEnv)
    (pid : ℤ) (escalate : Bool) : KillReport × List Sig :=
  if ! env.alive0 then
    ({ pid := pid, result := KillResult.already_dead }, [])
  else if ! env.softSendOk then
    ({ pid := pid
       result := KillResult.permission_denied
       soft_signal_sent := false
       error := some "Failed to send SIGTERM - check permissions" }, [])
  else if waitForDeath env.aliveSoft numSoftPolls then
    ({ pid := pid
       result := KillResult.soft
       soft_signal_sent := true }, [Sig.sigterm])
  else if ! escalate then
    ({ pid := pid
       result := KillResult.failed
       soft_signal_sent := true
       error := some "Process did not respond to SIGTERM and escalation is disabled" },
     [Sig.sigterm])
  else if ! env.hardSendOk then
    ({ pid := pid
       result := KillResult.failed
       soft_signal_sent := true
       hard_signal_sent := false
       error := some "Failed to send SIGKILL" }, [Sig.sigterm])
  else if verifyDeath env.aliveHard maxVerifyAttempts then
    ({ pid := pid
       result := KillResult.hard
       soft_signal_sent := true
       hard_signal_sent := true }, [Sig.sigterm, Sig.sigkill])
  else
    ({ pid := pid
       result := KillResult.zombie
       soft_signal_sent := true
       hard_signal_sent := true
       error := some "Process survived SIGKILL - may be zombie or kernel-protected" },
     [Sig.sigterm, Sig.sigkill])

/-! ### hard_kill.py: AgentTerminator

The registry logic of AgentTerminator.kill_agent (hard_kill.py 560-588) is
independent of how the underlying tree kill plays out, so the kill executor
outcome is passed in as the report it produced. For a registered agent the
tree kill always yields at least the parent report (hard_kill.py 423-447
appends the parent kill last), so the report handed to kill_agent is never
absent. -/

/-- Registry state of an AgentTerminator (hard_kill.py 543-547). -/
structure TermState where
  agents : String → Option ℤ
  kill_history : List KillReport

/-- AgentTerminator.register_agent (hard_kill.py 549-552). -/
def TermState.registerAgent (s : TermState) (agent : String) (pid : ℤ) :
    TermState :=
  { s with agents := fun a => if a = agent then some pid else s.agents a }

/-- AgentTerminator.unregister_agent (hard_kill.py 554-558). -/
def TermState.unregisterAgent (s : TermState) (agent : String) : TermState :=
  { s with agents := fun a => if a = agent then none else s.agents a }

/-- AgentTerminator.kill_agent (hard_kill.py 560-588): None for an
unregistered agent; otherwise run the kill (whose parent report is the
report argument), append it to the kill history, and unregister the agent.
The append and the unregistration are unconditional in the source: they
happen whenever a report exists, whatever its result. -/
def TermState.killAgent (s : TermState) (agent : String)
    (report : KillReport) : Option KillReport × TermState :=
  match s.agents agent with
  | none => (none, s)
  | some _ =>
    let s := { s with kill_history := s.kill_history ++ [report] }
    let s := s.unregisterAgent agent
    (some report, s)

/-! ### network_kill.py: firewall backends

The firewall owned by the operating system is the environment. For Linux it
is the KILLSWITCH_BLOCK iptables chain, modelled as the list of its rules;
each rule carries the comment tag written by the blocking call, and the
rule line shown by iptables -L (which the restore and is_blocked code
searches by substring) is modelled as that tag. For macOS it is the shared
pf table killswitch_blocked, a set of address strings. Subprocess
invocations of iptables/pfctl are assumed to succeed; the claims are about
the rule algebra, not about subprocess failure. -/

/-- One rule of the KILLSWITCH_BLOCK chain: the identifier it was installed
for. -/
structure LinuxRule where
  identifier : String
deriving DecidableEq, Repr

/-- The comment tag f"KILLSWITCH:{identifier}" attached to a block rule
(network_kill.py 164). -/
def tagOf (identifier : String) : String :=
  "KILLSWITCH:" ++ identifier

/-- The substring test f"KILLSWITCH:{identifier}" in line applied to the
listed rule line of a rule installed for some identifier
(network_kill.py 233 and 256). -/
def tagMatches (identifier : String) (r : LinuxRule) : Bool :=
  decide ((tagOf identifier).data <:+: (tagOf r.identifier).data)

/-- LinuxFirewall.block_all_traffic (network_kill.py 154-179): append a DROP
rule tagged for the identifier to the chain. -/
def linuxBlockAll (chain : List LinuxRule) (identifier : String) :
    List LinuxRule :=
  chain ++ [⟨identifier⟩]

/-- LinuxFirewall.restore_access (network_kill.py 218-251): collect the rule
numbers of the lines containing the tag and delete them in descending
order, which removes from the chain exactly the rules whose line matches. -/
def linuxRestore (chain : List LinuxRule) (identifier : String) :
    List LinuxRule :=
  chain.filter (fun r => ! tagMatches identifier r)

/-- LinuxFirewall.is_blocked (network_kill.py 253-256): the tag occurs in
the chain listing. -/
def linuxIsBlocked (chain : List LinuxRule) (identifier : String) : Bool :=
  chain.any (tagMatches identifier)

/-- MacOSFirewall.block_all_traffic (network_kill.py 304-321): add 0.0.0.0/0
to the shared killswitch_blocked table, whatever the identifier. -/
def macBlockAll (table : Finset String) (_identifier : String) :
    Finset String :=
  insert "0.0.0.0/0" table

/-- MacOSFirewall.block_ip (network_kill.py 327-339): add the address to the
same shared table. -/
def macBlockIp (table : Finset String) (ip : String) : Finset String :=
  insert ip table

/-- MacOSFirewall.restore_access (network_kill.py 341-353): flush the whole
shared table, whatever the identifier. -/
def macRestore (_table : Finset String) (_identifier : String) :
    Finset String :=
  ∅

/-- MacOSFirewall.is_blocked (network_kill.py 355-358): pfctl -T show output
is nonempty, whatever the identifier. -/
def macIsBlocked (table : Finset String) (_identifier : String) : Bool :=
  table.Nonempty

/-- A detector state whose unique-target cap attribute has been assigned,
modelling a write to the mutable max_unique_files attribute
(behavioral_thresholds.py 582). -/
def ExfilState.withMaxUniqueFiles (s : ExfilState) (n : ℕ) : ExfilState :=
  { s with max_unique_files := n }

/-! ### Theorems -/

/-- C3: a FailModeHandler constructed without an explicit mode is in CLOSED
mode, and in CLOSED mode on_validation_failure returns blocked
(allowed = false) with risk score 100 for every action, target and error. -/
theorem c3_closed_default_blocks :
    (FailModeHandler.init none []).config.mode = FailMode.closed ∧
    ∀ (hf : HashFn) (h : FailModeHandler),
      h.config.mode = FailMode.closed →
      ∀ (action target errorMsg : String) (now : ℚ),
        (h.onValidationFailure hf action target errorMsg now).1.allowed = false ∧
        (h.onValidationFailure hf action target errorMsg now).1.risk_score = 100 := by
  refine ⟨rfl, ?_⟩
  intro hf h hm action target errorMsg now
  simp [FailModeHandler.onValidationFailure, hm, FailModeHandler.handleFailClosed]

/-- Witness for C3 at a concrete handler, action, target and error. -/
theorem c3_closed_default_blocks_witness :
    (FailModeHandler.init none []).config.mode = FailMode.closed ∧
    ((FailModeHandler.init none []).onValidationFailure
        (fun _ _ _ _ _ => "digest") "file_read" "/etc/passwd" "timeout" 12).1.allowed
      = false ∧
    ((FailModeHandler.init none []).onValidationFailure
        (fun _ _ _ _ _ => "digest") "file_read" "/etc/passwd" "timeout" 12).1.risk_score
      = 100 := by
  refine ⟨c3_closed_default_blocks.1, ?_, ?_⟩
  · exact (c3_closed_default_blocks.2 (fun _ _ _ _ _ => "digest")
      (FailModeHandler.init none []) rfl "file_read" "/etc/passwd" "timeout" 12).1
  · exact (c3_closed_default_blocks.2 (fun _ _ _ _ _ => "digest")
      (FailModeHandler.init none []) rfl "file_read" "/etc/passwd" "timeout" 12).2

/-- C10: verify_integrity hashes only action, target, allowed, risk_score
and cached_at, so two cached policies agreeing on those fields and on the
stored hash verify identically however their expires_at and metadata
differ; consequently rewriting only expires_at or metadata after creation
is never detected. -/
theorem c10_integrity_ignores_expiry_and_metadata :
    (∀ (hf : HashFn) (p q : CachedPolicy),
      p.action = q.action → p.target = q.target → p.allowed = q.allowed →
      p.risk_score = q.risk_score → p.cached_at = q.cached_at →
      p.policy_hash = q.policy_hash →
      p.verifyIntegrity hf = q.verifyIntegrity hf) ∧
    ∀ (hf : HashFn) (p : CachedPolicy) (e : ℚ) (m : List (String × String)),
      CachedPolicy.verifyIntegrity hf { p with expires_at := e, metadata := m }
        = p.verifyIntegrity hf := by
  constructor
  · intro hf p q h1 h2 h3 h4 h5 h6
    simp [CachedPolicy.verifyIntegrity, CachedPolicy.computeHash,
      h1, h2, h3, h4, h5, h6]
  · intro hf p e m
    simp [CachedPolicy.verifyIntegrity, CachedPolicy.computeHash]

/-- Witness for C10: extending the lifetime of a concrete entry and swapping
its metadata leaves integrity verification unchanged. -/
theorem c10_integrity_ignores_expiry_and_metadata_witness :
    CachedPolicy.verifyIntegrity (fun a _ _ _ _ => a)
        { action := "file_read", target := "/tmp/x", allowed := false,
          risk_score := 85, cached_at := 0, expires_at := 999999,
          policy_hash := "file_read", metadata := [("k", "v")] }
      = CachedPolicy.verifyIntegrity (fun a _ _ _ _ => a)
        { action := "file_read", target := "/tmp/x", allowed := false,
          risk_score := 85, cached_at := 0, expires_at := 60,
          policy_hash := "file_read", metadata := [] } := by
  exact c10_integrity_ignores_expiry_and_metadata.1 (fun a _ _ _ _ => a)
    _ _ rfl rfl rfl rfl rfl rfl

/-- C2 (code-bug evidence): kill_agent appends the report to the kill
history and unregisters the agent unconditionally (hard_kill.py 584-587),
so even a report whose result is failed leaves the agent deregistered,
contradicting the specified retention of failed kills. Evaluated at the
failing input: agent-1 registered with pid 4242 and a kill that yields
result = failed. -/
theorem c2_failed_kill_still_unregisters :
    (TermState.killAgent
        { agents := fun a => if a = "agent-1" then some 4242 else none,
          kill_history := [] }
        "agent-1"
        { pid := 4242, result := KillResult.failed, soft_signal_sent := true,
          error := some "Process did not respond to SIGTERM and escalation is disabled" }).2.agents
        "agent-1" = none ∧
    (TermState.killAgent
        { agents := fun a => if a = "agent-1" then some 4242 else none,
          kill_history := [] }
        "agent-1"
        { pid := 4242, result := KillResult.failed, soft_signal_sent := true,
          error := some "Process did not respond to SIGTERM and escalation is disabled" }).2.kill_history
      = [{ pid := 4242, result := KillResult.failed, soft_signal_sent := true,
           error := some "Process did not respond to SIGTERM and escalation is disabled" }] := by
  constructor
  · simp [TermState.killAgent, TermState.unregisterAgent]
  · simp [TermState.killAgent, TermState.unregisterAgent]

/-- C6 (counterexample): on the macOS backend, restore_access flushes the
single shared pf table, so restoring agent-a also clears agent-b's block:
after block_all(a), block_all(b), restore(a), is_blocked(b) is false,
although the claim requires restore(a) to leave b's rules in place. -/
theorem c6_restore_not_scoped_counterexample :
    macIsBlocked
        (macRestore (macBlockAll (macBlockAll (∅ : Finset String) "agent-a") "agent-b")
          "agent-a")
        "agent-b" = false := by
  simp [macIsBlocked, macRestore]

/-- C6 (amended): the Linux backend behaves as claimed: two block_all calls
on one id leave is_blocked(id) true, one restore(id) clears it, and restore
keeps exactly the chain rules whose listed line does not contain the
KILLSWITCH:id tag; the macOS backend instead flushes the whole shared table
on restore, leaving no identifier blocked. -/
theorem c6_idempotent_block_and_scoped_restore :
    (∀ (chain : List LinuxRule) (id : String),
      linuxIsBlocked (linuxBlockAll (linuxBlockAll chain id) id) id = true ∧
      linuxIsBlocked (linuxRestore (linuxBlockAll (linuxBlockAll chain id) id) id) id
        = false ∧
      ∀ r : LinuxRule,
        r ∈ linuxRestore (linuxBlockAll (linuxBlockAll chain id) id) id ↔
          r ∈ chain ∧ tagMatches id r = false) ∧
    ∀ (table : Finset String) (id id2 : String),
      macIsBlocked (macRestore table id) id2 = false := by
  constructor
  · intro chain id
    have hself : tagMatches id (⟨id⟩ : LinuxRule) = true := by
      simp [tagMatches]
    refine ⟨?_, ?_, ?_⟩
    · simp [linuxIsBlocked, linuxBlockAll, List.any_append, hself]
    · simp [linuxIsBlocked, linuxRestore, List.any_eq_true]
    · intro r
      simp [linuxRestore, linuxBlockAll, List.mem_filter, List.mem_append, hself]
  · intro table id id2
    simp [macIsBlocked, macRestore]

/-- Keyed deletion really deletes: the key cannot be looked up afterwards. -/
theorem lookupKey_deleteKey (c : PCache) (key : String) :
    PCache.lookupKey (PCache.deleteKey c key) key = none := by
  have hfind : (PCache.deleteKey c key).find? (fun e => e.1 == key) = none := by
    rw [List.find?_eq_none]
    intro x hx
    have hmem := List.of_mem_filter hx
    simp at hmem ⊢
    exact hmem
  simp [PCache.lookupKey, hfind]

/-- C7: in CACHED mode, on_validation_failure replays exactly the cached
decision whenever the stored entry for (action, target) exists, is
unexpired, and passes integrity verification; otherwise (no entry, TTL
lapsed, or hash mismatch) it returns blocked with risk 100, and the cache
get treats the entry as a miss and discards it. -/
theorem c7_cached_mode_replay (hf : HashFn) (h : FailModeHandler)
    (action target errorMsg : String) (now : ℚ)
    (hmode : h.config.mode = FailMode.cached) :
    (∀ p, h.cache.lookupKey (makeKey action target) = some p →
      p.isExpired now = false → p.verifyIntegrity hf = true →
      (h.onValidationFailure hf action target errorMsg now).1.allowed = p.allowed ∧
      (h.onValidationFailure hf action target errorMsg now).1.risk_score
        = p.risk_score) ∧
    ((∀ p, h.cache.lookupKey (makeKey action target) = some p →
        p.isExpired now = true ∨ p.verifyIntegrity hf = false) →
      (h.onValidationFailure hf action target errorMsg now).1.allowed = false ∧
      (h.onValidationFailure hf action target errorMsg now).1.risk_score = 100 ∧
      (PCache.get hf h.cache action target now).1 = none ∧
      (PCache.get hf h.cache action target now).2.lookupKey (makeKey action target)
        = none) := by
  constructor
  · intro p hp hexp hver
    have hget : PCache.get hf h.cache action target now = (some p, h.cache) := by
      simp [PCache.get, hp, hexp, hver]
    simp [FailModeHandler.onValidationFailure, hmode,
      FailModeHandler.handleFailCached, hget]
  · intro hbad
    have hget1 : (PCache.get hf h.cache action target now).1 = none ∧
        (PCache.get hf h.cache action target now).2.lookupKey
          (makeKey action target) = none := by
      cases hl : h.cache.lookupKey (makeKey action target) with
      | none => simp [PCache.get, hl]
      | some p =>
        rcases hbad p hl with hexp | hver
        · constructor
          · simp [PCache.get, hl, hexp]
          · simp [PCache.get, hl, hexp, lookupKey_deleteKey]
        · rcases hexp2 : p.isExpired now with _ | _
          · constructor
            · simp [PCache.get, hl, hexp2, hver]
            · simp [PCache.get, hl, hexp2, hver, lookupKey_deleteKey]
          · constructor
            · simp [PCache.get, hl, hexp2]
            · simp [PCache.get, hl, hexp2, lookupKey_deleteKey]
    rcases hgf : PCache.get hf h.cache action target now with ⟨copt, c2⟩
    rw [hgf] at hget1
    obtain ⟨hg1, hg2⟩ := hget1
    simp only at hg1
    subst hg1
    refine ⟨?_, ?_, rfl, hg2⟩
    · simp [FailModeHandler.onValidationFailure, hmode,
        FailModeHandler.handleFailCached, hgf]
    · simp [FailModeHandler.onValidationFailure, hmode,
        FailModeHandler.handleFailCached, hgf]

/-- Witness for C7: a cached-mode handler replays a concrete valid entry
(blocked at risk 85), and one with an empty cache falls back to blocked at
risk 100. -/
theorem c7_cached_mode_replay_witness :
    ((FailModeHandler.onValidationFailure (fun _ _ _ _ _ => "H")
        { config := { mode := FailMode.cached },
          cache := [("a::t",
            { action := "a", target := "t", allowed := false, risk_score := 85,
              cached_at := 0, expires_at := 60, policy_hash := "H",
              metadata := [] })] }
        "a" "t" "err" 5).1.allowed = false ∧
      (FailModeHandler.onValidationFailure (fun _ _ _ _ _ => "H")
        { config := { mode := FailMode.cached },
          cache := [("a::t",
            { action := "a", target := "t", allowed := false, risk_score := 85,
              cached_at := 0, expires_at := 60, policy_hash := "H",
              metadata := [] })] }
        "a" "t" "err" 5).1.risk_score = 85) ∧
    ((FailModeHandler.onValidationFailure (fun _ _ _ _ _ => "H")
        { config := { mode := FailMode.cached }, cache := [] }
        "a" "t" "err" 5).1.allowed = false ∧
      (FailModeHandler.onValidationFailure (fun _ _ _ _ _ => "H")
        { config := { mode := FailMode.cached }, cache := [] }
        "a" "t" "err" 5).1.risk_score = 100) := by
  constructor
  · exact (c7_cached_mode_replay (fun _ _ _ _ _ => "H")
      { config := { mode := FailMode.cached },
        cache := [("a::t",
          { action := "a", target := "t", allowed := false, risk_score := 85,
            cached_at := 0, expires_at := 60, policy_hash := "H",
            metadata := [] })] }
      "a" "t" "err" 5 rfl).1
      { action := "a", target := "t", allowed := false, risk_score := 85,
        cached_at := 0, expires_at := 60, policy_hash := "H", metadata := [] }
      (by decide) (by decide) (by decide)
  · have hres := (c7_cached_mode_replay (fun _ _ _ _ _ => "H")
      { config := { mode := FailMode.cached }, cache := [] }
      "a" "t" "err" 5 rfl).2
      (by intro p hp; simp [PCache.lookupKey] at hp)
    exact ⟨hres.1, hres.2.1⟩

/-- C5 (counterexample): the unique-target count the exfiltration sub-check
compares against its cap is never pruned to the 300-second window. With a
unique-target cap of 1, an access to t1 at time 0 followed by an access to
t2 at time 400 is flagged as exfiltration, although only the t2 access lies
within the window; a detector that saw only the in-window access reports no
exfiltration. The stale access therefore still contributes, contradicting
the claim. -/
theorem c5_stale_target_counts_counterexample :
    ((((ExfilState.init.withMaxUniqueFiles 1).recordDataAccess
        "agent" "t1" 1 0).2.recordDataAccess "agent" "t2" 1 400).1.1 = true) ∧
    (((ExfilState.init.withMaxUniqueFiles 1).recordDataAccess
        "agent" "t2" 1 400).1.1 = false) := by
  constructor
  · norm_num [ExfilState.recordDataAccess, ExfilState.init,
      ExfilState.withMaxUniqueFiles, List.filter]
    simp
  · norm_num [ExfilState.recordDataAccess, ExfilState.init,
      ExfilState.withMaxUniqueFiles, List.filter]

/-- C5 (amended): after record_data_access, every entry of the byte-volume
log lies within the preceding window, so only in-window accesses contribute
to the byte-volume quantity; the distinct-target set, however, is the old
set plus the new target — it is never pruned, so targets of accesses older
than the window keep contributing to the unique-target quantity. -/
theorem c5_volume_windowed_targets_cumulative (s : ExfilState)
    (agent target : String) (bytes now : ℚ) :
    (∀ e ∈ (s.recordDataAccess agent target bytes now).2.data_volumes agent,
      now - s.window_seconds < e.1) ∧
    ((s.recordDataAccess agent target bytes now).2.unique_targets agent
      = insert target (s.unique_targets agent)) := by
  unfold ExfilState.recordDataAccess
  dsimp only
  split_ifs <;>
  · refine ⟨?_, by simp⟩
    intro e he
    simp only [if_true, List.mem_filter, decide_eq_true_eq] at he
    exact he.2

/-- Witness for C5 (amended) at a concrete fresh detector and access. -/
theorem c5_volume_windowed_targets_cumulative_witness :
    (∀ e ∈ (ExfilState.init.recordDataAccess "agent" "t2" 1 400).2.data_volumes
        "agent",
      (400 : ℚ) - ExfilState.init.window_seconds < e.1) ∧
    ((ExfilState.init.recordDataAccess "agent" "t2" 1 400).2.unique_targets "agent"
      = insert "t2" (ExfilState.init.unique_targets "agent")) :=
  c5_volume_windowed_targets_cumulative ExfilState.init "agent" "t2" 1 400

/-- C4: every breach returned by check_action — the synthetic cooldown
breach included — has should_kill set exactly when its breach action is
kill or its count has reached max_count times the kill multiplier of the
governing threshold. The governing threshold is a genuine one: at least one
action allowed before breaching, and the kill multiplier at least 1 as the
data model requires. -/
theorem c4_should_kill_iff (s : BTState) (agent action_type : String)
    (now : ℚ) (cfg : ThresholdConfig) (b : ThresholdBreach)
    (hcfg : s.thresholds action_type = some cfg)
    (hmc : 1 ≤ cfg.max_count) (hmult : 1 ≤ cfg.multiplier_for_kill)
    (hb : (s.checkAction agent action_type now).1.2 = some b) :
    b.should_kill = true ↔
      (b.breach_action = ThresholdAction.kill ∨
        (cfg.max_count : ℚ) * cfg.multiplier_for_kill ≤ (b.count : ℚ)) := by
  have hpos : (0 : ℚ) < (cfg.max_count : ℚ) * cfg.multiplier_for_kill := by
    have h1 : (1 : ℚ) ≤ (cfg.max_count : ℚ) := by exact_mod_cast hmc
    have h2 : (0 : ℚ) < cfg.multiplier_for_kill := lt_of_lt_of_le one_pos hmult
    exact mul_pos (lt_of_lt_of_le one_pos h1) h2
  unfold BTState.checkAction at hb
  by_cases hcool : s.isInCooldown agent action_type now
  · rw [if_pos hcool] at hb
    simp only [Option.some.injEq] at hb
    subst hb
    simp only [Bool.false_eq_true, false_iff, Nat.cast_zero]
    rintro (hk | hle)
    · exact absurd hk (by decide)
    · exact absurd hle (not_le.mpr hpos)
  · rw [if_neg hcool, hcfg] at hb
    dsimp only at hb
    rcases hcr : s.countRecentActions agent action_type now cfg.window_seconds
      with ⟨count, s1⟩
    rw [hcr] at hb
    dsimp only at hb
    by_cases hcnt : cfg.max_count ≤ count
    · rw [if_pos hcnt] at hb
      rcases hhb : s1.handleBreach agent cfg count now with ⟨br, s2⟩
      rw [hhb] at hb
      dsimp only at hb
      simp only [Option.some.injEq] at hb
      subst hb
      have hbr : br =
          { agent_id := agent
            threshold_name := cfg.name
            action_type := cfg.action_type
            count := count
            limit := cfg.max_count
            window_seconds := cfg.window_seconds
            breach_action := cfg.action_on_breach
            should_kill :=
              decide ((cfg.max_count : ℚ) * cfg.multiplier_for_kill ≤ (count : ℚ)) ||
                (cfg.action_on_breach == ThresholdAction.kill) } := by
        have := congrArg Prod.fst hhb
        rw [BTState.handleBreach] at this
        exact this.symm
      subst hbr
      simp only [Bool.or_eq_true, decide_eq_true_eq, beq_iff_eq]
      tauto
    · rw [if_neg hcnt] at hb
      exact absurd hb (by simp)

/-- Concrete threshold used to exercise the should_kill characterization:
two file reads per minute, kill multiplier 1, block on breach. -/
def c4cfg : ThresholdConfig :=
  { name := "File Read Limit", action_type := "file_read", max_count := 2,
    window_seconds := 60, action_on_breach := ThresholdAction.block,
    cooldown_seconds := 60, multiplier_for_kill := 1 }

/-- Engine state with two recent file reads recorded for agent a. -/
def c4state : BTState :=
  { thresholds := fun at0 => if at0 = "file_read" then some c4cfg else none
    history := fun a at0 => if a = "a" ∧ at0 = "file_read" then [5, 6] else []
    cooldowns := fun _ _ => 0
    breach_history := [] }

/-- The breach the third check returns on that state. -/
def c4breach : ThresholdBreach :=
  { agent_id := "a", threshold_name := "File Read Limit",
    action_type := "file_read", count := 2, limit := 2,
    window_seconds := 60, breach_action := ThresholdAction.block,
    should_kill := true }

/-- Witness for C4: a threshold of 2 file reads per minute with kill
multiplier 1 breaches on the third check, and the returned breach has
should_kill true in agreement with the characterization. -/
theorem c4_should_kill_iff_witness :
    c4breach.should_kill = true ↔
      (c4breach.breach_action = ThresholdAction.kill ∨
        (c4cfg.max_count : ℚ) * c4cfg.multiplier_for_kill ≤ (c4breach.count : ℚ)) :=
  c4_should_kill_iff c4state "a" "file_read" 10 c4cfg c4breach
    (by decide) (by decide) (by decide)
    (by norm_num [c4state, c4cfg, c4breach, BTState.checkAction,
      BTState.isInCooldown, BTState.countRecentActions, BTState.handleBreach,
      update2, List.filter])

/-- Threshold of 2 file reads per 60 seconds used by the C1 counterexample. -/
def c1cfg : ThresholdConfig :=
  { name := "File Read Limit", action_type := "file_read", max_count := 2,
    window_seconds := 60, action_on_breach := ThresholdAction.block,
    cooldown_seconds := 60, multiplier_for_kill := 2 }

/-- Fresh engine state holding only that threshold: no history, no
cooldowns. -/
def c1state : BTState :=
  { thresholds := fun at0 => if at0 = "file_read" then some c1cfg else none
    history := fun _ _ => []
    cooldowns := fun _ _ => 0
    breach_history := [] }

/-- C1 (counterexample): with max_count = N = 2 and window 60, the claim
says the 2nd call within the window is blocked with a breach; on the code
the first two calls are both allowed, because the current call is only
recorded after the count check passes, so the Nth call sees a count of
N - 1 &lt; N. -/
theorem c1_nth_call_still_allowed_counterexample :
    (c1state.runCalls "a" "file_read" [0, 1]).1 =
      [(true, none), (true, none)] := by
  norm_num [BTState.runCalls, BTState.checkAction, BTState.isInCooldown,
    BTState.countRecentActions, BTState.recordAction, c1state, c1cfg,
    update2, List.filter]

/-- One allowed step of check_action: with the governing threshold present,
no live cooldown, the existing history inside the window and shorter than
max_count, the call is allowed and only appends its timestamp. -/
theorem checkAction_allowed_step (cfg : ThresholdConfig) (agent aty : String)
    (lo : ℚ) (s : BTState) (t : ℚ)
    (hth : s.thresholds aty = some cfg)
    (hcool : s.cooldowns agent aty ≤ lo)
    (hhist : ∀ x ∈ s.history agent aty, lo ≤ x)
    (ht : lo ≤ t ∧ t < lo + cfg.window_seconds)
    (hlt : (s.history agent aty).length < cfg.max_count) :
    (s.checkAction agent aty t).1 = (true, none) ∧
    (s.checkAction agent aty t).2.history agent aty
      = s.history agent aty ++ [t] ∧
    (s.checkAction agent aty t).2.thresholds = s.thresholds ∧
    (s.checkAction agent aty t).2.cooldowns = s.cooldowns := by
  have hnc : s.isInCooldown agent aty t = false := by
    simp only [BTState.isInCooldown, decide_eq_false_iff_not, not_lt]
    exact le_trans hcool ht.1
  have hfilter : (s.history agent aty).filter
      (fun x => decide (t - cfg.window_seconds < x)) = s.history agent aty := by
    apply List.filter_eq_self.mpr
    intro x hx
    simp only [decide_eq_true_eq]
    have hxlo := hhist x hx
    have hcut : t - cfg.window_seconds < lo := by linarith [ht.2]
    linarith
  have hcra : s.countRecentActions agent aty t cfg.window_seconds =
      ((s.history agent aty).length,
        { s with history := update2 s.history agent aty (s.history agent aty) }) := by
    unfold BTState.countRecentActions
    dsimp only
    rw [hfilter]
  have hnotmax : ¬ cfg.max_count ≤ (s.history agent aty).length :=
    not_le.mpr hlt
  have hstep : s.checkAction agent aty t =
      ((true, none),
        BTState.recordAction
          { s with history := update2 s.history agent aty (s.history agent aty) }
          agent aty t) := by
    unfold BTState.checkAction
    rw [hnc]
    simp only [Bool.false_eq_true, if_false, hth]
    rw [hcra]
    dsimp only
    rw [if_neg hnotmax]
  rw [hstep]
  refine ⟨rfl, ?_, rfl, rfl⟩
  simp [BTState.recordAction, update2]

/-- A breaching step of check_action: same circumstances but the history
already holds max_count or more in-window timestamps, so the call is
blocked with the breach built by _handle_breach. -/
theorem checkAction_breach_step (cfg : ThresholdConfig) (agent aty : String)
    (lo : ℚ) (s : BTState) (t : ℚ)
    (hth : s.thresholds aty = some cfg)
    (hcool : s.cooldowns agent aty ≤ lo)
    (hhist : ∀ x ∈ s.history agent aty, lo ≤ x)
    (ht : lo ≤ t ∧ t < lo + cfg.window_seconds)
    (hge : cfg.max_count ≤ (s.history agent aty).length) :
    (s.checkAction agent aty t).1 =
      (false, some
        { agent_id := agent, threshold_name := cfg.name,
          action_type := cfg.action_type,
          count := (s.history agent aty).length, limit := cfg.max_count,
          window_seconds := cfg.window_seconds,
          breach_action := cfg.action_on_breach,
          should_kill :=
            decide ((cfg.max_count : ℚ) * cfg.multiplier_for_kill
                ≤ ((s.history agent aty).length : ℚ)) ||
              (cfg.action_on_breach == ThresholdAction.kill) }) := by
  have hnc : s.isInCooldown agent aty t = false := by
    simp only [BTState.isInCooldown, decide_eq_false_iff_not, not_lt]
    exact le_trans hcool ht.1
  have hfilter : (s.history agent aty).filter
      (fun x => decide (t - cfg.window_seconds < x)) = s.history agent aty := by
    apply List.filter_eq_self.mpr
    intro x hx
    simp only [decide_eq_true_eq]
    have hxlo := hhist x hx
    have hcut : t - cfg.window_seconds < lo := by linarith [ht.2]
    linarith
  have hcra : s.countRecentActions agent aty t cfg.window_seconds =
      ((s.history agent aty).length,
        { s with history := update2 s.history agent aty (s.history agent aty) }) := by
    unfold BTState.countRecentActions
    dsimp only
    rw [hfilter]
  unfold BTState.checkAction
  rw [hnc]
  simp only [Bool.false_eq_true, if_false, hth]
  rw [hcra]
  dsimp only
  rw [if_pos hge]
  rfl

/-- A run over an in-window list of call times that stays under max_count is
entirely allowed and appends exactly those timestamps. -/
theorem runCalls_all_allowed (cfg : ThresholdConfig) (agent aty : String)
    (lo : ℚ) :
    ∀ (ts : List ℚ) (s : BTState),
      s.thresholds aty = some cfg →
      s.cooldowns agent aty ≤ lo →
      (∀ x ∈ s.history agent aty, lo ≤ x) →
      (∀ t ∈ ts, lo ≤ t ∧ t < lo + cfg.window_seconds) →
      (s.history agent aty).length + ts.length ≤ cfg.max_count →
      (s.runCalls agent aty ts).1 =
        ts.map (fun _ => ((true : Bool), (none : Option ThresholdBreach))) ∧
      (s.runCalls agent aty ts).2.history agent aty
        = s.history agent aty ++ ts ∧
      (s.runCalls agent aty ts).2.thresholds = s.thresholds ∧
      (s.runCalls agent aty ts).2.cooldowns = s.cooldowns := by
  intro ts
  induction ts with
  | nil =>
    intro s hth hcool hhist hts hlen
    simp [BTState.runCalls]
  | cons t rest ih =>
    intro s hth hcool hhist hts hlen
    have ht : lo ≤ t ∧ t < lo + cfg.window_seconds := hts t (by simp)
    have hlt : (s.history agent aty).length < cfg.max_count := by
      simp only [List.length_cons] at hlen
      omega
    obtain ⟨hr, hh, hthr, hcd⟩ :=
      checkAction_allowed_step cfg agent aty lo s t hth hcool hhist ht hlt
    rcases hca : s.checkAction agent aty t with ⟨r1, s1⟩
    rw [hca] at hr hh hthr hcd
    obtain ⟨ihr, ihh, ihthr, ihcd⟩ := ih s1
      (by rw [hthr]; exact hth)
      (by rw [hcd]; exact hcool)
      (by
        rw [hh]
        intro x hx
        rcases List.mem_append.mp hx with hx1 | hx1
        · exact hhist x hx1
        · simp at hx1; subst hx1; exact ht.1)
      (fun u hu => hts u (by simp [hu]))
      (by rw [hh]; simp only [List.length_append, List.length_singleton]
          simp only [List.length_cons] at hlen; omega)
    rcases hrc : s1.runCalls agent aty rest with ⟨rs, s2⟩
    have hrun : s.runCalls agent aty (t :: rest) = (r1 :: rs, s2) := by
      simp only [BTState.runCalls]
      rw [hca]
      dsimp only
      rw [hrc]
    rw [hrc] at ihr ihh ihthr ihcd
    rw [hrun]
    dsimp only at hr ihr ihh ihthr ihcd ⊢
    subst hr
    refine ⟨by simp [ihr], ?_, ?_, ?_⟩
    · rw [ihh, hh]
      simp
    · rw [ihthr, hthr]
    · rw [ihcd, hcd]

/-- C1 (amended): for a threshold with max_count = N and window W and an
agent with no history or cooldown for that action type, N calls within W
are all allowed and the (N+1)-th call within W is blocked with a
ThresholdBreach recording count = N. -/
theorem c1_first_n_allowed_n_plus_one_blocked (cfg : ThresholdConfig)
    (agent aty : String) (lo : ℚ) (s : BTState) (ts : List ℚ) (tlast : ℚ)
    (hth : s.thresholds aty = some cfg)
    (hcool : s.cooldowns agent aty ≤ lo)
    (hhist : s.history agent aty = [])
    (hts : ∀ t ∈ ts ++ [tlast], lo ≤ t ∧ t < lo + cfg.window_seconds)
    (hlen : ts.length = cfg.max_count) :
    (s.runCalls agent aty (ts ++ [tlast])).1 =
      ts.map (fun _ => ((true : Bool), (none : Option ThresholdBreach))) ++
        [(false, some
          { agent_id := agent, threshold_name := cfg.name,
            action_type := cfg.action_type, count := cfg.max_count,
            limit := cfg.max_count, window_seconds := cfg.window_seconds,
            breach_action := cfg.action_on_breach,
            should_kill :=
              decide ((cfg.max_count : ℚ) * cfg.multiplier_for_kill
                  ≤ (cfg.max_count : ℚ)) ||
                (cfg.action_on_breach == ThresholdAction.kill) })] := by
  obtain ⟨hr1, hh1, hthr1, hcd1⟩ :=
    runCalls_all_allowed cfg agent aty lo ts s hth hcool
      (by rw [hhist]; intro x hx; simp at hx)
      (fun u hu => hts u (List.mem_append.mpr (Or.inl hu)))
      (by rw [hhist]; simp [hlen])
  have happ : ∀ (l1 l2 : List ℚ) (s0 : BTState),
      (s0.runCalls agent aty (l1 ++ l2)).1 =
        (s0.runCalls agent aty l1).1 ++
          (((s0.runCalls agent aty l1).2).runCalls agent aty l2).1 := by
    intro l1
    induction l1 with
    | nil => intro l2 s0; simp [BTState.runCalls]
    | cons u us ihu =>
      intro l2 s0
      rcases hca : s0.checkAction agent aty u with ⟨r, s1⟩
      rcases hrc : s1.runCalls agent aty us with ⟨rs1, sA⟩
      rcases hrc2 : s1.runCalls agent aty (us ++ l2) with ⟨rs2, sB⟩
      have h1 : s0.runCalls agent aty ((u :: us) ++ l2) = (r :: rs2, sB) := by
        rw [List.cons_append]
        simp only [BTState.runCalls]
        rw [hca]
        dsimp only
        rw [hrc2]
      have h2 : s0.runCalls agent aty (u :: us) = (r :: rs1, sA) := by
        simp only [BTState.runCalls]
        rw [hca]
        dsimp only
        rw [hrc]
      have hih := ihu l2 s1
      rw [hrc, hrc2] at hih
      rw [h1, h2]
      dsimp only at hih ⊢
      simp [hih]
  rw [happ ts [tlast] s, hr1]
  have hlast : lo ≤ tlast ∧ tlast < lo + cfg.window_seconds :=
    hts tlast (List.mem_append.mpr (Or.inr (by simp)))
  set s1 := (s.runCalls agent aty ts).2 with hs1
  have hhistlen : s1.history agent aty = ts := by
    rw [hh1, hhist]; simp
  have hb := checkAction_breach_step cfg agent aty lo s1 tlast
    (by rw [hthr1]; exact hth)
    (by rw [hcd1]; exact hcool)
    (by rw [hhistlen]; intro x hx; exact (hts x (List.mem_append.mpr (Or.inl hx))).1)
    hlast
    (by rw [hhistlen, hlen])
  rw [hhistlen, hlen] at hb
  have hrunlast : (s1.runCalls agent aty [tlast]).1 =
      [(s1.checkAction agent aty tlast).1] := by
    rcases hca2 : s1.checkAction agent aty tlast with ⟨r, s2⟩
    simp only [BTState.runCalls]
    rw [hca2]
  rw [hrunlast, hb]

/-- Witness for C1 (amended): max_count 2, window 60, calls at 0, 1 and 2 —
the first two allowed, the third blocked with count 2 and, with kill
multiplier 2, should_kill false. -/
theorem c1_first_n_allowed_n_plus_one_blocked_witness :
    (c1state.runCalls "a" "file_read" ([0, 1] ++ [2])).1 =
      [0, 1].map (fun _ => ((true : Bool), (none : Option ThresholdBreach))) ++
        [(false, some
          { agent_id := "a", threshold_name := c1cfg.name,
            action_type := c1cfg.action_type, count := c1cfg.max_count,
            limit := c1cfg.max_count, window_seconds := c1cfg.window_seconds,
            breach_action := c1cfg.action_on_breach,
            should_kill :=
              decide ((c1cfg.max_count : ℚ) * c1cfg.multiplier_for_kill
                  ≤ (c1cfg.max_count : ℚ)) ||
                (c1cfg.action_on_breach == ThresholdAction.kill) })] :=
  c1_first_n_allowed_n_plus_one_blocked c1cfg "a" "file_read" 0 c1state
    [0, 1] 2 (by decide) (by norm_num [c1state]) (by decide)
    (by
      intro t htmem
      simp only [c1cfg]
      norm_num
      simp at htmem
      rcases htmem with h | h | h <;> subst h <;> norm_num)
    (by decide)

/-- The soft-kill wait succeeds exactly when some poll inside the timeout
observes the process dead. -/
theorem waitForDeath_iff (alive : ℕ → Bool) (n : ℕ) :
    waitForDeath alive n = true ↔ ∃ k < n, alive k = false := by
  simp [waitForDeath, List.any_eq_true, List.mem_range]

/-- C8: for a live target with a deliverable graceful signal and escalation
enabled, HardKill.kill delivers SIGTERM exactly once; death observed within
the soft timeout yields result soft with no SIGKILL ever delivered; SIGKILL
is delivered only if every in-timeout poll saw the process alive; and in
that case a verified death yields result hard with hard_signal_sent. -/
theorem c8_graceful_once_escalation_monotonic (numPolls maxVerify : ℕ)
    (env : KillEnv) (pid : ℤ)
    (halive : env.alive0 = true) (hsend : env.softSendOk = true) :
    (HardKill.kill numPolls maxVerify env pid true).2.count Sig.sigterm = 1 ∧
    ((∃ k < numPolls, env.aliveSoft k = false) →
      (HardKill.kill numPolls maxVerify env pid true).1.result
          = KillResult.soft ∧
      (HardKill.kill numPolls maxVerify env pid true).1.hard_signal_sent
          = false) ∧
    (Sig.sigkill ∈ (HardKill.kill numPolls maxVerify env pid true).2 →
      ∀ k < numPolls, env.aliveSoft k = true) ∧
    ((∀ k < numPolls, env.aliveSoft k = true) → env.hardSendOk = true →
      verifyDeath env.aliveHard maxVerify = true →
      (HardKill.kill numPolls maxVerify env pid true).1.result
          = KillResult.hard ∧
      (HardKill.kill numPolls maxVerify env pid true).1.hard_signal_sent
          = true) := by
  by_cases hw : waitForDeath env.aliveSoft numPolls = true
  · have hkill : HardKill.kill numPolls maxVerify env pid true =
        ({ pid := pid, result := KillResult.soft, soft_signal_sent := true },
         [Sig.sigterm]) := by
      simp [HardKill.kill, halive, hsend, hw]
    refine ⟨by simp [hkill], fun _ => by simp [hkill], ?_, ?_⟩
    · intro hmem
      rw [hkill] at hmem
      simp at hmem
    · intro hall _ _
      obtain ⟨k, hk, hdead⟩ := (waitForDeath_iff env.aliveSoft numPolls).mp hw
      rw [hall k hk] at hdead
      exact absurd hdead (by simp)
  · have hw2 : waitForDeath env.aliveSoft numPolls = false :=
      Bool.not_eq_true _ ▸ by simpa using hw
    have hnosoft : ¬ ∃ k < numPolls, env.aliveSoft k = false := fun hex =>
      hw ((waitForDeath_iff env.aliveSoft numPolls).mpr hex)
    have hallalive : ∀ k < numPolls, env.aliveSoft k = true := by
      intro k hk
      cases halivek : env.aliveSoft k with
      | true => rfl
      | false => exact absurd ⟨k, hk, halivek⟩ hnosoft
    by_cases hho : env.hardSendOk = true
    · by_cases hv : verifyDeath env.aliveHard maxVerify = true
      · have hkill : HardKill.kill numPolls maxVerify env pid true =
            ({ pid := pid, result := KillResult.hard, soft_signal_sent := true,
               hard_signal_sent := true }, [Sig.sigterm, Sig.sigkill]) := by
          simp [HardKill.kill, halive, hsend, hw2, hho, hv]
        refine ⟨by simp [hkill], fun hex => absurd hex hnosoft,
          fun _ => hallalive, fun _ _ _ => by simp [hkill]⟩
      · have hv2 : verifyDeath env.aliveHard maxVerify = false := by
          simpa using hv
        have hkill : HardKill.kill numPolls maxVerify env pid true =
            ({ pid := pid, result := KillResult.zombie,
               soft_signal_sent := true, hard_signal_sent := true,
               error := some "Process survived SIGKILL - may be zombie or kernel-protected" },
             [Sig.sigterm, Sig.sigkill]) := by
          simp [HardKill.kill, halive, hsend, hw2, hho, hv2]
        refine ⟨by simp [hkill], fun hex => absurd hex hnosoft,
          fun _ => hallalive, fun _ _ hvx => absurd hvx hv⟩
    · have hho2 : env.hardSendOk = false := by simpa using hho
      have hkill : HardKill.kill numPolls maxVerify env pid true =
          ({ pid := pid, result := KillResult.failed, soft_signal_sent := true,
             hard_signal_sent := false, error := some "Failed to send SIGKILL" },
           [Sig.sigterm]) := by
        simp [HardKill.kill, halive, hsend, hw2, hho2]
      refine ⟨by simp [hkill], fun hex => absurd hex hnosoft, ?_,
        fun _ hhx _ => absurd hhx hho⟩
      intro hmem
      rw [hkill] at hmem
      simp at hmem

/-- Witness for C8: a process that is already dead at the first soft poll
yields a soft kill with no SIGKILL, and one SIGTERM delivered. -/
theorem c8_graceful_once_escalation_monotonic_witness :
    (HardKill.kill 20 10
        { alive0 := true, softSendOk := true, aliveSoft := fun _ => false,
          hardSendOk := true, aliveHard := fun _ => false }
        7 true).2.count Sig.sigterm = 1 ∧
    (HardKill.kill 20 10
        { alive0 := true, softSendOk := true, aliveSoft := fun _ => false,
          hardSendOk := true, aliveHard := fun _ => false }
        7 true).1.result = KillResult.soft ∧
    (HardKill.kill 20 10
        { alive0 := true, softSendOk := true, aliveSoft := fun _ => false,
          hardSendOk := true, aliveHard := fun _ => false }
        7 true).1.hard_signal_sent = false := by
  have h := c8_graceful_once_escalation_monotonic 20 10
    { alive0 := true, softSendOk := true, aliveSoft := fun _ => false,
      hardSendOk := true, aliveHard := fun _ => false }
    7 rfl rfl
  exact ⟨h.1, (h.2.1 ⟨0, by decide, rfl⟩).1, (h.2.1 ⟨0, by decide, rfl⟩).2⟩

/-! ### Sliding-window lemmas for C9 -/

/-- Sum of the buffered event values. -/
def sumVals (l : List WindowEvent) : ℚ := (l.map (·.value)).sum

/-- The in-window total at a cutoff: the sum over exactly the events whose
timestamp is at or after the cutoff. -/
def inWindowSum (l : List WindowEvent) (cutoff : ℚ) : ℚ :=
  sumVals (l.filter (fun e => decide (cutoff ≤ e.timestamp)))

/-- Invariant of every reachable SlidingWindow: the running total is the sum
of the buffered events and the buffer is in timestamp order (events are
stamped with a monotone clock). -/
def SlidingWindow.WF (w : SlidingWindow) : Prop :=
  w.total = sumVals w.events ∧
  w.events.Sorted (fun a b => a.timestamp ≤ b.timestamp)

/-- Every window length is positive. -/
theorem WindowSize.seconds_pos (ws : WindowSize) : 0 < ws.seconds := by
  cases ws <;> norm_num [WindowSize.seconds]

/-- The prune loop started at the true running total pops exactly the
maximal strictly-older-than-cutoff prefix, keeping the total consistent. -/
theorem swPrune_eq_dropWhile (cutoff : ℚ) :
    ∀ l : List WindowEvent,
      swPrune l cutoff (sumVals l) =
        (l.dropWhile (fun e => decide (e.timestamp < cutoff)),
         sumVals (l.dropWhile (fun e => decide (e.timestamp < cutoff)))) := by
  intro l
  induction l with
  | nil => simp [swPrune]
  | cons e rest ih =>
    by_cases he : e.timestamp < cutoff
    · have hsum : sumVals (e :: rest) - e.value = sumVals rest := by
        simp [sumVals]
      have hstep : swPrune (e :: rest) cutoff (sumVals (e :: rest)) =
          swPrune rest cutoff (sumVals rest) := by
        rw [swPrune]
        rw [if_pos he, hsum]
      rw [hstep, ih]
      simp [List.dropWhile_cons, he]
    · have hstep : swPrune (e :: rest) cutoff (sumVals (e :: rest)) =
          (e :: rest, sumVals (e :: rest)) := by
        rw [swPrune]
        rw [if_neg he]
      rw [hstep]
      simp [List.dropWhile_cons, he]

/-- On a timestamp-sorted buffer, popping the strictly-older prefix is the
same as keeping exactly the in-window events. -/
theorem dropWhile_lt_eq_filter (cutoff : ℚ) :
    ∀ l : List WindowEvent,
      l.Sorted (fun a b => a.timestamp ≤ b.timestamp) →
      l.dropWhile (fun e => decide (e.timestamp < cutoff)) =
        l.filter (fun e => decide (cutoff ≤ e.timestamp)) := by
  intro l
  induction l with
  | nil => intro _; simp
  | cons e rest ih =>
    intro hs
    rw [List.sorted_cons] at hs
    by_cases he : e.timestamp < cutoff
    · have hne : ¬ cutoff ≤ e.timestamp := not_le.mpr he
      simp only [List.dropWhile_cons, List.filter_cons, he, hne,
        if_true, if_false, decide_eq_true_eq]
      simpa using ih hs.2
    · have hce : cutoff ≤ e.timestamp := not_lt.mp he
      have hall : rest.filter (fun x => decide (cutoff ≤ x.timestamp)) = rest :=
        List.filter_eq_self.mpr (fun x hx => by
          simp only [decide_eq_true_eq]
          exact le_trans hce (hs.1 x hx))
      simp only [List.dropWhile_cons, List.filter_cons, he, hce,
        if_true, if_false]
      simp [hall, hce]

/-- Filtering to the window twice changes nothing: the in-window total of a
pruned buffer is the in-window total of the original buffer. -/
theorem inWindowSum_filter_self (l : List WindowEvent) (cutoff : ℚ) :
    inWindowSum (l.filter (fun e => decide (cutoff ≤ e.timestamp))) cutoff
      = inWindowSum l cutoff := by
  simp [inWindowSum, List.filter_filter]

/-- SlidingWindow.get_total on a well-formed window returns exactly the
in-window total, prunes the buffer to the window, and preserves the
invariant and the window length. -/
theorem getTotal_spec (w : SlidingWindow) (ts : ℚ) (hwf : w.WF) :
    (w.getTotal ts).1 = inWindowSum w.events (ts - w.window_size.seconds) ∧
    (w.getTotal ts).2.events =
      w.events.filter
        (fun e => decide (ts - w.window_size.seconds ≤ e.timestamp)) ∧
    (w.getTotal ts).2.WF ∧
    (w.getTotal ts).2.window_size = w.window_size := by
  obtain ⟨htot, hsort⟩ := hwf
  have h1 := swPrune_eq_dropWhile (ts - w.window_size.seconds) w.events
  rw [dropWhile_lt_eq_filter _ _ hsort] at h1
  unfold SlidingWindow.getTotal
  rw [htot, h1]
  exact ⟨rfl, rfl, ⟨rfl, hsort.filter _⟩, rfl⟩

/-- SlidingWindow.add on a well-formed window whose events precede the new
timestamp: the buffer becomes the window filter of the old buffer plus the
new event, which is always retained, and the invariant is preserved. -/
theorem add_spec (w : SlidingWindow) (v ts : ℚ) (hwf : w.WF)
    (hts : ∀ e ∈ w.events, e.timestamp ≤ ts) :
    (⟨ts, v⟩ : WindowEvent) ∈ (w.add v ts).events ∧
    (w.add v ts).events =
      (w.events ++ [(⟨ts, v⟩ : WindowEvent)]).filter
        (fun e => decide (ts - w.window_size.seconds ≤ e.timestamp)) ∧
    (w.add v ts).WF ∧
    (w.add v ts).window_size = w.window_size := by
  obtain ⟨htot, hsort⟩ := hwf
  have hsort2 : (w.events ++ [(⟨ts, v⟩ : WindowEvent)]).Sorted
      (fun a b => a.timestamp ≤ b.timestamp) := by
    refine List.pairwise_append.mpr
      ⟨hsort, List.sorted_singleton _, fun a ha b hb => ?_⟩
    simp at hb
    subst hb
    exact hts a ha
  have hsum2 : w.total + v
      = sumVals (w.events ++ [(⟨ts, v⟩ : WindowEvent)]) := by
    simp [sumVals, htot]
  have h1 := swPrune_eq_dropWhile (ts - w.window_size.seconds)
    (w.events ++ [(⟨ts, v⟩ : WindowEvent)])
  rw [dropWhile_lt_eq_filter _ _ hsort2] at h1
  have hadd : w.add v ts =
      { w with
        events := (w.events ++ [(⟨ts, v⟩ : WindowEvent)]).filter
          (fun e => decide (ts - w.window_size.seconds ≤ e.timestamp)),
        total := sumVals ((w.events ++ [(⟨ts, v⟩ : WindowEvent)]).filter
          (fun e => decide (ts - w.window_size.seconds ≤ e.timestamp))) } := by
    unfold SlidingWindow.add
    rw [hsum2]
    dsimp only
    rw [h1]
  rw [hadd]
  refine ⟨?_, rfl, ⟨rfl, hsort2.filter _⟩, rfl⟩
  rw [List.mem_filter]
  refine ⟨by simp, ?_⟩
  simp only [decide_eq_true_eq]
  have := WindowSize.seconds_pos w.window_size
  linarith

/-- The invariant carried through one check_thresholds step: every window is
well-formed, keeps its size, and its in-window total at the probe time now
is the pinned value T. -/
def SWInv (d : SWDetector) (now : ℚ) (T : MetricType → WindowSize → ℚ) : Prop :=
  ∀ m ws, ((d.trackers m).windows ws).WF ∧
    ((d.trackers m).windows ws).window_size = ws ∧
    inWindowSum ((d.trackers m).windows ws).events (now - ws.seconds) = T m ws

/-- One loop-body step of check_thresholds: the emitted breach is exactly
determined by comparing the (metric, window) in-window total with the
limit, and the lazily pruned state still satisfies the invariant with the
same totals. -/
theorem checkOne_spec (d : SWDetector) (th : WindowThreshold) (now : ℚ)
    (T : MetricType → WindowSize → ℚ) (hinv : SWInv d now T) :
    (d.checkOne th now).1 =
      (if th.limit < T th.metric th.window then
        some { metric := th.metric, window := th.window,
               current_value := T th.metric th.window, limit := th.limit,
               action := th.action, agent_id := d.agent_id }
       else none) ∧
    (d.checkOne th now).2.agent_id = d.agent_id ∧
    (d.checkOne th now).2.thresholds = d.thresholds ∧
    SWInv (d.checkOne th now).2 now T := by
  obtain ⟨hwf, hws, hT⟩ := hinv th.metric th.window
  rcases hgt : ((d.trackers th.metric).windows th.window).getTotal now
    with ⟨tot, w2⟩
  obtain ⟨h1, h2, h3, h4⟩ := getTotal_spec _ now hwf
  rw [hgt] at h1 h2 h3 h4
  dsimp only at h1 h2 h3 h4
  rw [hws] at h1 h2
  rw [hT] at h1
  have hmt : (d.trackers th.metric).getTotal th.window now =
      (tot, ⟨fun x => if x = th.window then w2
             else (d.trackers th.metric).windows x⟩) := by
    unfold MetricTracker.getTotal
    rw [hgt]
  have hinv2 : ∀ m ws,
      ((if m = th.metric then
          (⟨fun x => if x = th.window then w2
            else (d.trackers th.metric).windows x⟩ : MetricTracker)
        else d.trackers m).windows ws).WF ∧
      ((if m = th.metric then
          (⟨fun x => if x = th.window then w2
            else (d.trackers th.metric).windows x⟩ : MetricTracker)
        else d.trackers m).windows ws).window_size = ws ∧
      inWindowSum ((if m = th.metric then
          (⟨fun x => if x = th.window then w2
            else (d.trackers th.metric).windows x⟩ : MetricTracker)
        else d.trackers m).windows ws).events (now - ws.seconds) = T m ws := by
    intro m ws
    by_cases hm : m = th.metric
    · subst hm
      by_cases hwseq : ws = th.window
      · subst hwseq
        rw [if_pos rfl]
        dsimp only
        rw [if_pos rfl]
        refine ⟨h3, by rw [h4, hws], ?_⟩
        rw [h2, inWindowSum_filter_self]
        exact hT
      · rw [if_pos rfl]
        dsimp only
        rw [if_neg hwseq]
        exact hinv th.metric ws
    · rw [if_neg hm]
      exact hinv m ws
  unfold SWDetector.checkOne
  rw [hmt]
  dsimp only
  by_cases hlt : th.limit < tot
  · rw [if_pos hlt, if_pos (h1 ▸ hlt)]
    refine ⟨by rw [h1], rfl, rfl, ?_⟩
    intro m ws
    exact hinv2 m ws
  · rw [if_neg hlt, if_neg (h1 ▸ hlt)]
    refine ⟨rfl, rfl, rfl, ?_⟩
    intro m ws
    exact hinv2 m ws

/-- The check_thresholds fold: the breach list is exactly the thresholds
whose pinned in-window total strictly exceeds their limit, in table order,
each tagged with its own action and the detector's agent id. -/
theorem checkThresholds_spec (now : ℚ) (A : String)
    (T : MetricType → WindowSize → ℚ) :
    ∀ (ths : List WindowThreshold) (d : SWDetector),
      d.agent_id = A → SWInv d now T →
      (d.checkThresholds ths now).1 =
        ths.filterMap (fun th =>
          if th.limit < T th.metric th.window then
            some { metric := th.metric, window := th.window,
                   current_value := T th.metric th.window, limit := th.limit,
                   action := th.action, agent_id := A }
          else none) ∧
      (d.checkThresholds ths now).2.agent_id = A ∧
      SWInv (d.checkThresholds ths now).2 now T := by
  intro ths
  induction ths with
  | nil =>
    intro d hA hinv
    exact ⟨by simp [SWDetector.checkThresholds], hA, hinv⟩
  | cons th rest ih =>
    intro d hA hinv
    obtain ⟨hres, hAid, hthr, hinv1⟩ := checkOne_spec d th now T hinv
    rcases hco : d.checkOne th now with ⟨b1, d1⟩
    rw [hco] at hres hAid hinv1
    dsimp only at hres hAid hinv1
    obtain ⟨ihres, ihA, ihinv⟩ := ih d1 (hAid.trans hA) hinv1
    rcases hct : d1.checkThresholds rest now with ⟨bs, d2⟩
    rw [hct] at ihres ihA ihinv
    dsimp only at ihres ihA ihinv
    have hrun : d.checkThresholds (th :: rest) now =
        (b1.elim bs (· :: bs), d2) := by
      simp only [SWDetector.checkThresholds]
      rw [hco]
      dsimp only
      rw [hct]
    rw [hrun]
    refine ⟨?_, ihA, ihinv⟩
    dsimp only
    rw [List.filterMap_cons]
    by_cases hlt : th.limit < T th.metric th.window
    · rw [if_pos hlt] at hres ⊢
      rw [hres]
      rw [hA] at *
      simp [ihres, hA]
    · rw [if_neg hlt] at hres ⊢
      rw [hres]
      simp [ihres]

/-- Detector well-formedness: every tracker window is well-formed and sized
to its slot. Holds for a fresh detector and is preserved by every record
and check, by add_spec and checkOne_spec. -/
def SWDetector.WF (d : SWDetector) : Prop :=
  ∀ m ws, ((d.trackers m).windows ws).WF ∧
    ((d.trackers m).windows ws).window_size = ws

/-- C9: record(metric, value) lands the value in all three window
accumulators of that metric simultaneously, and check_thresholds emits one
breach per configured (metric, window) pair whose in-window total strictly
exceeds that pair's limit, tagged with that pair's action, each pair judged
only against its own window's total — totals at or below the limit
contribute nothing to the breach list. -/
theorem c9_simultaneous_windows_independent_limits
    (d : SWDetector) (m : MetricType) (v ts now : ℚ) (hwf : d.WF)
    (hts : ∀ ws, ∀ e ∈ ((d.trackers m).windows ws).events, e.timestamp ≤ ts) :
    (∀ ws : WindowSize,
      (⟨ts, v⟩ : WindowEvent) ∈
        (((d.record m v ts).trackers m).windows ws).events) ∧
    (d.check now).1 = d.thresholds.filterMap (fun th =>
      if th.limit <
          inWindowSum ((d.trackers th.metric).windows th.window).events
            (now - th.window.seconds) then
        some { metric := th.metric, window := th.window,
               current_value :=
                 inWindowSum ((d.trackers th.metric).windows th.window).events
                   (now - th.window.seconds),
               limit := th.limit, action := th.action, agent_id := d.agent_id }
      else none) := by
  constructor
  · intro ws
    have hmem := (add_spec ((d.trackers m).windows ws) v ts
      (hwf m ws).1 (hts ws)).1
    have htr : (d.record m v ts).trackers m =
        ⟨fun x => ((d.trackers m).windows x).add v ts⟩ := by
      simp [SWDetector.record, MetricTracker.record]
    rw [htr]
    exact hmem
  · have h := checkThresholds_spec now d.agent_id
      (fun mm ws =>
        inWindowSum ((d.trackers mm).windows ws).events (now - ws.seconds))
      d.thresholds d rfl
      (fun mm ws => ⟨(hwf mm ws).1, (hwf mm ws).2, rfl⟩)
    exact h.1

/-- The twelve 100,000-byte events of the specification example, spread over
two minutes. -/
def c9events : List WindowEvent :=
  [⟨0, 100000⟩, ⟨10, 100000⟩, ⟨20, 100000⟩, ⟨30, 100000⟩, ⟨40, 100000⟩,
   ⟨50, 100000⟩, ⟨60, 100000⟩, ⟨70, 100000⟩, ⟨80, 100000⟩, ⟨90, 100000⟩,
   ⟨100, 100000⟩, ⟨110, 100000⟩]

/-- A detector holding those events for bytes_out in all three windows, with
the 1-hour bytes_out limit of 10,000,000 configured. -/
def c9det : SWDetector :=
  { agent_id := "agent-001"
    thresholds := [{ metric := MetricType.bytes_out,
                     window := WindowSize.hour1, limit := 10000000,
                     action := "alert" }]
    trackers := fun mm =>
      if mm = MetricType.bytes_out then
        ⟨fun ws => { window_size := ws, events := c9events, total := 1200000 }⟩
      else MetricTracker.init
    breaches := [] }

/-- Witness for C9 at the specification example: 1,200,000 bytes against a
1-hour limit of 10,000,000, record at time 120 and check at time 3600. -/
theorem c9_simultaneous_windows_independent_limits_witness :
    (∀ ws : WindowSize,
      (⟨120, 100000⟩ : WindowEvent) ∈
        (((c9det.record MetricType.bytes_out 100000 120).trackers
          MetricType.bytes_out).windows ws).events) ∧
    (c9det.check 3600).1 = c9det.thresholds.filterMap (fun th =>
      if th.limit <
          inWindowSum ((c9det.trackers th.metric).windows th.window).events
            (3600 - th.window.seconds) then
        some { metric := th.metric, window := th.window,
               current_value :=
                 inWindowSum ((c9det.trackers th.metric).windows th.window).events
                   (3600 - th.window.seconds),
               limit := th.limit, action := th.action,
               agent_id := c9det.agent_id }
      else none) :=
  c9_simultaneous_windows_independent_limits c9det MetricType.bytes_out
    100000 120 3600
    (by
      intro mm ws
      by_cases h : mm = MetricType.bytes_out
      · subst h
        have htr : c9det.trackers MetricType.bytes_out =
            ⟨fun x =>
              { window_size := x, events := c9events, total := 1200000 }⟩ := by
          simp [c9det]
        rw [htr]
        refine ⟨⟨?_, ?_⟩, rfl⟩
        · norm_num [sumVals, c9events]
        · dsimp only
          decide
      · have htr : c9det.trackers mm = MetricTracker.init := by
          simp [c9det, h]
        rw [htr]
        exact ⟨⟨rfl, List.sorted_nil⟩, rfl⟩)
    (by
      intro ws
      have htr : c9det.trackers MetricType.bytes_out =
          ⟨fun x =>
            { window_size := x, events := c9events, total := 1200000 }⟩ := by
        simp [c9det]
      rw [htr]
      dsimp only
      decide)

end KillSwitch
